import Mathlib

/-!
Shallow embedding of `muon/_atac/fragments.py` (fragment-file utilities for
single-cell ATAC data) and verification of the frozen claims about it.

Conventions of the embedding:
* A fragment record is a parsed BED line `(contig, start, end, name=cell
  barcode, score)`; coordinates are `Int` (upstream extension can push query
  starts below zero), scores are `Int` (the source parses them with `int`).
* The external tabix store is modelled as a list of records plus a contig
  list; `tabixFetch` returns the records of a contig overlapping the half-open
  query interval, which is the documented contract of
  `pysam.TabixFile.fetch` with a BED parser.
* Dense numpy matrices are modelled as `Mat`: explicit row/column counts plus
  an entry function.  The numpy slice assignment `mx[r, a:b] += s` with
  `a ≥ 0` is modelled exactly, including the wrap-around of a negative `b`
  (`b < 0` addresses column `ncols + b`), by `npSliceEnd`.
* Python exceptions are modelled with `Except`; a `try/except: pass` around a
  dictionary lookup becomes a `match` on an `Option`.
-/

set_option maxHeartbeats 1000000

namespace Muon

/-- One record of a fragments file: contig, half-open interval
`[fstart, fend)`, cell barcode (`name`), and integer score. -/
structure FragmentRecord where
  contig : String
  fstart : Int
  fend : Int
  name : String
  score : Int
deriving DecidableEq

/-- The external indexed fragment store: its contig names and its records. -/
structure FragStore where
  contigs : List String
  records : List FragmentRecord
deriving DecidableEq

/-- A tabix connection: the store it reads plus whether it is still open. -/
structure Conn where
  store : FragStore
  isOpen : Bool
deriving DecidableEq

/-- `handle.fetch(chrom, start, end)`: all records on `chrom` overlapping the
half-open interval `[s, e)` (`fr.fstart < e` and `s < fr.fend`). -/
def tabixFetch (records : List FragmentRecord) (chrom : String) (s e : Int) :
    List FragmentRecord :=
  records.filter fun fr =>
    fr.contig == chrom && decide (fr.fstart < e) && decide (s < fr.fend)

/-- A feature row (`Chromosome`, `Start`, `End`). -/
structure Feature where
  chrom : String
  fstart : Int
  fend : Int
deriving DecidableEq

/-- A dense integer matrix with explicit shape, as a numpy 2d array. -/
structure Mat where
  nrows : Nat
  ncols : Nat
  entry : Nat → Nat → Int

/-- Python dict built from `zip(keys, range(n))`: later bindings of a
duplicate key overwrite earlier ones.  `d = {k: v for k, v in zip(cells,
range(n))}` in the source. -/
def buildDict (cells : List String) : String → Option Nat :=
  (cells.enum.map fun p => (p.2, p.1)).foldl
    (fun f kv => fun x => if x = kv.1 then some kv.2 else f x)
    (fun _ => none)

/-- Effective end of the numpy slice `[a:b]` on a row of width `n` when
`b ≤ n`: a negative `b` wraps around to `n + b`. -/
def npSliceEnd (n : Nat) (b : Int) : Int :=
  if b < 0 then (n : Int) + b else b

/-- One iteration of the loop body of `_region_pileup`: look the record's
barcode up in `d` (the `try`/`except: pass` around a failing lookup skips the
record), clip the column range, and slice-add the score:
`mx[rowind, colind_start:colind_end] += score`. -/
def addRecord (d : String → Option Nat) (start : Int) (mx : Mat)
    (fr : FragmentRecord) : Mat :=
  match d fr.name with
  | none => mx
  | some rowind =>
    let a : Int := max (fr.fstart - start) 0
    let b : Int := min (fr.fend - start) (mx.ncols : Int)
    { mx with entry := fun r c =>
        if r = rowind ∧ a ≤ (c : Int) ∧ (c : Int) < npSliceEnd mx.ncols b then
          mx.entry r c + fr.score
        else mx.entry r c }

/-- `_region_pileup(mx, fragments, d, chromosome, start, end)`: fetch the
records overlapping `[start, stop)` and fold the slice-add over them.
The clipping width `n_features = mx.shape[1]` is the matrix column count. -/
def _region_pileup (mx : Mat) (records : List FragmentRecord)
    (d : String → Option Nat) (chromosome : String) (start stop : Int) : Mat :=
  (tabixFetch records chromosome start stop).foldl (addRecord d start) mx

/-- Predicate: record `fr` contributes its score to entry `(r, c)` of a
matrix of width `w` when accumulated over a window starting at `start`. -/
def hitPred (d : String → Option Nat) (start : Int) (w : Nat) (r c : Nat)
    (fr : FragmentRecord) : Bool :=
  d fr.name == some r
    && decide (max (fr.fstart - start) 0 ≤ (c : Int))
    && decide ((c : Int) < min (fr.fend - start) (w : Int))

lemma addRecord_ncols (d : String → Option Nat) (start : Int) (mx : Mat)
    (fr : FragmentRecord) : (addRecord d start mx fr).ncols = mx.ncols := by
  rcases hd : d fr.name with _ | rowind <;> simp [addRecord, hd]

lemma addRecord_nrows (d : String → Option Nat) (start : Int) (mx : Mat)
    (fr : FragmentRecord) : (addRecord d start mx fr).nrows = mx.nrows := by
  rcases hd : d fr.name with _ | rowind <;> simp [addRecord, hd]

lemma foldl_addRecord_ncols (d : String → Option Nat) (start : Int) :
    ∀ (l : List FragmentRecord) (mx : Mat),
      (l.foldl (addRecord d start) mx).ncols = mx.ncols := by
  intro l
  induction l with
  | nil => intro mx; rfl
  | cons fr l ih => intro mx; rw [List.foldl_cons, ih, addRecord_ncols]

lemma foldl_addRecord_nrows (d : String → Option Nat) (start : Int) :
    ∀ (l : List FragmentRecord) (mx : Mat),
      (l.foldl (addRecord d start) mx).nrows = mx.nrows := by
  intro l
  induction l with
  | nil => intro mx; rfl
  | cons fr l ih => intro mx; rw [List.foldl_cons, ih, addRecord_nrows]

lemma addRecord_entry_of_nonneg (d : String → Option Nat) (start : Int)
    (mx : Mat) (fr : FragmentRecord) (r c : Nat)
    (h : 0 ≤ min (fr.fend - start) (mx.ncols : Int)) :
    (addRecord d start mx fr).entry r c =
      if hitPred d start mx.ncols r c fr then mx.entry r c + fr.score
      else mx.entry r c := by
  rcases hd : d fr.name with _ | rowind
  · simp [addRecord, hd, hitPred]
  · have hb : npSliceEnd mx.ncols (min (fr.fend - start) (mx.ncols : Int)) =
        min (fr.fend - start) (mx.ncols : Int) := by
      rw [npSliceEnd, if_neg (not_lt.2 h)]
    simp only [addRecord, hd, hb]
    refine if_congr ?_ rfl rfl
    simp only [hitPred, hd, Bool.and_eq_true, decide_eq_true_eq, beq_iff_eq,
      Option.some.injEq]
    constructor
    · rintro ⟨h1, h2, h3⟩; exact ⟨⟨h1.symm, h2⟩, h3⟩
    · rintro ⟨⟨h1, h2⟩, h3⟩; exact ⟨h1.symm, h2, h3⟩

lemma foldl_addRecord_entry (d : String → Option Nat) (start : Int) :
    ∀ (l : List FragmentRecord) (mx : Mat) (r c : Nat),
      (∀ fr ∈ l, start < fr.fend) →
      (l.foldl (addRecord d start) mx).entry r c =
        mx.entry r c +
          ((l.filter (hitPred d start mx.ncols r c)).map
            (fun fr => fr.score)).sum := by
  intro l
  induction l with
  | nil => intro mx r c _; simp
  | cons fr l ih =>
    intro mx r c h
    have h1 : start < fr.fend := h fr (List.mem_cons_self fr l)
    have hmin : 0 ≤ min (fr.fend - start) (mx.ncols : Int) :=
      le_min (by omega) (Int.natCast_nonneg _)
    rw [List.foldl_cons,
      ih (addRecord d start mx fr) r c (fun g hg => h g (List.mem_cons_of_mem fr hg)),
      addRecord_ncols, addRecord_entry_of_nonneg d start mx fr r c hmin,
      List.filter_cons]
    by_cases hp : hitPred d start mx.ncols r c fr
    · simp only [hp, if_pos, if_true, List.map_cons, List.sum_cons]
      omega
    · simp [hp]

lemma addRecord_entry_high (d : String → Option Nat) (start : Int) (mx : Mat)
    (fr : FragmentRecord) (r c : Nat) (h : mx.ncols ≤ c) :
    (addRecord d start mx fr).entry r c = mx.entry r c := by
  rcases hd : d fr.name with _ | rowind
  · simp [addRecord, hd]
  · have hb : npSliceEnd mx.ncols (min (fr.fend - start) (mx.ncols : Int)) ≤
        (mx.ncols : Int) := by
      rw [npSliceEnd]
      have := min_le_right (fr.fend - start) ((mx.ncols : Int))
      split <;> omega
    simp only [addRecord, hd]
    split
    · rename_i hcond
      exfalso
      obtain ⟨-, -, hc⟩ := hcond
      have : ((c : Int)) < (mx.ncols : Int) := lt_of_lt_of_le hc hb
      omega
    · rfl

lemma foldl_addRecord_entry_high (d : String → Option Nat) (start : Int) :
    ∀ (l : List FragmentRecord) (mx : Mat) (r c : Nat), mx.ncols ≤ c →
      (l.foldl (addRecord d start) mx).entry r c = mx.entry r c := by
  intro l
  induction l with
  | nil => intro mx r c _; rfl
  | cons fr l ih =>
    intro mx r c h
    rw [List.foldl_cons, ih (addRecord d start mx fr) r c
      (by rw [addRecord_ncols]; exact h), addRecord_entry_high d start mx fr r c h]

/-- Errors `region_pileup` raises: both are `ValueError`s in the source; the
spec names them `InvalidRangeError` and `UnknownContigError`. -/
inductive PileupError where
  | invalidRange (s e : Int)
  | unknownContig (c : String)
deriving DecidableEq

/-- The argument of `region_pileup`: a file path or an existing connection. -/
inductive FragSource where
  | path (p : String)
  | conn (c : Conn)

/-- The connection `region_pileup` works on: opened fresh for a path
(`open_fragment_connection`), or the caller's handle as-is. -/
def resolveConn (env : String → FragStore) (src : FragSource) : Conn :=
  match src with
  | .path p => ⟨env p, true⟩
  | .conn c => c

/-- Outcome of `region_pileup`: the returned matrix or the raised error,
together with the final state of the connection. -/
structure RPOut where
  result : Except PileupError Mat
  conn : Conn

/-- `region_pileup(fragments, cells, chromosome, start, end)`: open the
connection if given a path, raise on `end - start < 0`, build the cell
dictionary and an all-zero `n x (end - start)` matrix, raise if the
chromosome is not among the contigs, accumulate with `_region_pileup`, and
close the connection (only on this success path). -/
def region_pileup (env : String → FragStore) (src : FragSource)
    (cells : List String) (chromosome : String) (start stop : Int) : RPOut :=
  let frag := resolveConn env src
  let n := cells.length
  if stop - start < 0 then
    ⟨.error (.invalidRange start stop), frag⟩
  else
    let d := buildDict cells
    let mx : Mat := ⟨n, (stop - start).toNat, fun _ _ => 0⟩
    if frag.store.contigs.contains chromosome then
      ⟨.ok (_region_pileup mx frag.store.records d chromosome start stop),
        ⟨frag.store, false⟩⟩
    else
      ⟨.error (.unknownContig chromosome), frag⟩

/-- `Except.isOk` specialised to pileup outcomes (the matrix carries a
function, so generic decidable equality is unavailable). -/
def isOkE : Except PileupError Mat → Bool
  | .ok _ => true
  | .error _ => false

/-- `_tss_pileup(adata, features, extend_upstream, extend_downstream)`: a
dense `n x (extend_downstream + extend_upstream + 1)` zero matrix, the
features restricted to contigs of the fragments file, and one
`_region_pileup` per feature over `[f.Start - extend_upstream,
f.Start + extend_downstream)`. -/
def _tss_pileup (store : FragStore) (cells : List String)
    (features : List Feature) (extend_upstream extend_downstream : Int) : Mat :=
  let nf := (extend_downstream + extend_upstream + 1).toNat
  let d := buildDict cells
  let feats := features.filter fun f => store.contigs.contains f.chrom
  feats.foldl
    (fun mx f => _region_pileup mx store.records d f.chrom
      (f.fstart - extend_upstream) (f.fstart + extend_downstream))
    ⟨cells.length, nf, fun _ _ => 0⟩

/-- `count_fragments_features(data, features, extend_upstream,
extend_downstream)`: per feature, the `(row index, score)` pairs appended to
the lil-matrix row — records whose barcode is not a key of the cell
dictionary are skipped by the inner `try/except`.  A fetch on a chromosome
absent from the fragments file raises (the outer handler logs and re-raises),
which the model reports for the first such feature. -/
def count_fragments_features (store : FragStore) (cells : List String)
    (features : List Feature) (extend_upstream extend_downstream : Int) :
    Except PileupError (List (List (Nat × Int))) :=
  let d := buildDict cells
  match features.find? (fun f => !(store.contigs.contains f.chrom)) with
  | some f => .error (.unknownContig f.chrom)
  | none => .ok (features.map fun f =>
      (tabixFetch store.records f.chrom (f.fstart - extend_upstream)
        (f.fend + extend_downstream)).filterMap
        fun fr => (d fr.name).map fun ind => (ind, fr.score))

/-- Entry `(cellRow, featIdx)` of the AnnData matrix returned by
`count_fragments_features` after `tocsr().transpose()`: duplicate column
indices appended to one lil row are summed by the CSR conversion. -/
def matrixEntry (rowsData : List (List (Nat × Int))) (cellRow featIdx : Nat) :
    Int :=
  (((rowsData[featIdx]?.getD []).filter fun p => p.1 == cellRow).map
    fun p => p.2).sum

lemma region_pileup_ok (env : String → FragStore) (src : FragSource)
    (cells : List String) (chromosome : String) (start stop : Int)
    (h1 : ¬ stop - start < 0)
    (h2 : (resolveConn env src).store.contigs.contains chromosome = true) :
    region_pileup env src cells chromosome start stop =
      ⟨.ok (_region_pileup
          ⟨cells.length, (stop - start).toNat, fun _ _ => 0⟩
          (resolveConn env src).store.records (buildDict cells)
          chromosome start stop),
        ⟨(resolveConn env src).store, false⟩⟩ := by
  rw [region_pileup, if_neg h1, if_pos h2]

/-- The exceptions arising inside the `try` block of `locate_fragments`:
`KeyError` from `adata.uns["files"]` when no `files` map exists,
`ValueError` ("No filepath found ...") when the map has no `fragments` entry
and no explicit path was given, and a failure of
`open_fragment_connection`. -/
inductive LocError where
  | keyError
  | valueErrorNoPath
  | openError (p : String)
deriving DecidableEq

/-- What `locate_fragments` leaves behind: the metadata
`uns` (`none` = no `files` map, `some none` = `files` without a `fragments`
entry, `some (some p)` = stored path `p`), the connection handed to the
caller (identified by its path) if `return_fragments`, the path the call
resolved, and the exception the catch-all handler caught and printed. -/
structure LocateResult where
  uns : Option (Option String)
  ret : Option String
  resolved : Option String
  caught : Option LocError
deriving DecidableEq

/-- The `try` block of `locate_fragments`: resolve the path (explicit
argument, else the stored `uns["files"]["fragments"]`), open a connection to
validate it (`openOk` says which paths open successfully), then write the
path into the metadata and optionally return the live connection. -/
def locate_fragments_try (openOk : String → Bool)
    (uns : Option (Option String)) (fragments : Option String)
    (return_fragments : Bool) : Except LocError LocateResult :=
  (match fragments with
   | some p => Except.ok p
   | none =>
     match uns with
     | none => Except.error LocError.keyError
     | some none => Except.error LocError.valueErrorNoPath
     | some (some p) => Except.ok p).bind
    fun p =>
      if openOk p then
        .ok { uns := some (some p)
              ret := if return_fragments then some p else none
              resolved := some p
              caught := none }
      else .error (.openError p)

/-- `locate_fragments(data, fragments, return_fragments)`: the `try` block
wrapped in `except Exception as e: print(e)` — every failure is caught and
printed, the function returns normally (`None`) with the metadata unchanged.
The `finally` block closes the connection unless it was returned. -/
def locate_fragments (openOk : String → Bool) (uns : Option (Option String))
    (fragments : Option String) (return_fragments : Bool) :
    Except LocError LocateResult :=
  match locate_fragments_try openOk uns fragments return_fragments with
  | .ok r => .ok r
  | .error e => .ok { uns := uns, ret := none, resolved := none, caught := some e }

/-- Errors of `fetch_regions_to_df`: `concatValueError` is the untyped
`ValueError` pandas raises from `pd.concat` on an empty list of tables.
`emptyResultError` is modelled from the spec: the typed `EmptyResultError`
the spec prescribes for the zero-row case; the source never raises it. -/
inductive FetchDfErr where
  | concatValueError
  | emptyResultError
deriving DecidableEq

/-- One row of the DataFrame built by `fetch_regions_to_df`. -/
structure DfRow where
  chrom : String
  fstart : Int
  fend : Int
  cell : String
  score : Int
  feature : String
deriving DecidableEq

/-- The per-feature table of `fetch_regions_to_df`: skip the feature when its
chromosome is unknown to the store (the fetch raises `ValueError`, caught and
printed), drop the table when the fetch is empty, otherwise tag every row
with the label `"chrom_start_end"` built from the feature's own
(pre-extension) coordinates, and shift by the feature midpoint
`int(f.Start + (f.End - f.Start) / 2)` (truncated toward zero) when
`relative_coordinates` is set. -/
def featureRows (store : FragStore) (extend_upstream extend_downstream : Int)
    (relative : Bool) (f : Feature) : List DfRow :=
  if store.contigs.contains f.chrom then
    let frs := tabixFetch store.records f.chrom (f.fstart - extend_upstream)
      (f.fend + extend_downstream)
    if frs.isEmpty then []
    else
      let label := f.chrom ++ "_" ++ toString f.fstart ++ "_" ++ toString f.fend
      let middle := (f.fstart + f.fend).tdiv 2
      frs.map fun x =>
        if relative then
          ⟨x.contig, x.fstart - middle, x.fend - middle, x.name, x.score, label⟩
        else ⟨x.contig, x.fstart, x.fend, x.name, x.score, label⟩
  else []

/-- `fetch_regions_to_df(fragment_path, features, extend_upstream,
extend_downstream, relative_coordinates)`: collect the nonempty per-feature
tables and concatenate them; `pd.concat` of zero tables raises pandas's
`ValueError` ("No objects to concatenate"). -/
def fetch_regions_to_df (store : FragStore) (features : List Feature)
    (extend_upstream extend_downstream : Int) (relative : Bool) :
    Except FetchDfErr (List DfRow) :=
  let dfs := (features.map
    (featureRows store extend_upstream extend_downstream relative)).filter
    fun df => !df.isEmpty
  if dfs.isEmpty then .error .concatValueError else .ok dfs.flatten

lemma region_pileup_invalidRange (env : String → FragStore) (src : FragSource)
    (cells : List String) (chromosome : String) (start stop : Int)
    (h1 : stop - start < 0) :
    region_pileup env src cells chromosome start stop =
      ⟨.error (.invalidRange start stop), resolveConn env src⟩ := by
  rw [region_pileup, if_pos h1]

lemma region_pileup_unknownContig (env : String → FragStore) (src : FragSource)
    (cells : List String) (chromosome : String) (start stop : Int)
    (h1 : ¬ stop - start < 0)
    (h2 : (resolveConn env src).store.contigs.contains chromosome = false) :
    region_pileup env src cells chromosome start stop =
      ⟨.error (.unknownContig chromosome), resolveConn env src⟩ := by
  have h3 : ¬ ((resolveConn env src).store.contigs.contains chromosome = true) := by
    intro hc
    rw [h2] at hc
    exact absurd hc (by decide)
  rw [region_pileup, if_neg h1, if_neg h3]

/-- C1: every record fetched by the Region Pileup Accumulator whose barcode
is a key of `d` has its score added (on top of the previous contents, row
`d[cell_id]`) at exactly the columns in
`[max(record.start - start, 0), min(record.end - start, width))` with
`width = mx.ncols` the matrix column count (`hitPred` is that column
condition); records with unknown barcodes contribute to no entry and raise
no error.  Stated as an exact sum characterisation of every entry. -/
theorem C1_region_pileup_scatter_adds_clipped_scores :
    ∀ (records : List FragmentRecord) (d : String → Option Nat)
      (chrom : String) (start stop : Int) (mx : Mat) (r c : Nat),
      (_region_pileup mx records d chrom start stop).entry r c =
        mx.entry r c +
          (((tabixFetch records chrom start stop).filter
              (hitPred d start mx.ncols r c)).map (fun fr => fr.score)).sum := by
  intro records d chrom start stop mx r c
  apply foldl_addRecord_entry
  intro fr hfr
  simp only [tabixFetch, List.mem_filter, Bool.and_eq_true,
    decide_eq_true_eq] at hfr
  exact hfr.2.2

/-- C2 counterexample: in `_tss_pileup` with `extend_upstream =
extend_downstream = 1` the fetched window is `[9, 11)` of width `2`, yet the
fragment `[10, 12)` writes its score into column `2` — a column at the
window's width.  The claim that no column at or beyond `end - start` of the
fetched window is ever written is false for `tss_pileup`. -/
theorem C2_counterexample_tss_writes_at_window_width :
    (_tss_pileup ⟨["chr1"], [⟨"chr1", 10, 12, "A", 1⟩]⟩ ["A"]
        [⟨"chr1", 10, 20⟩] 1 1).entry 0 2 = 1 ∧
      (10 + 1 : Int) - (10 - 1) = 2 ∧ ¬ ((2 : Nat) < 2) := by
  refine ⟨by decide, by decide, by decide⟩

/-- C2 amended: the accumulator never writes at or beyond the MATRIX column
count `mx.ncols`; for `region_pileup` the matrix has exactly
`(end - start).toNat` columns, so there columns at or beyond the window
width stay zero.  (`tss_pileup`'s matrix has `extend_upstream +
extend_downstream + 1` columns — one more than its fetched window — and its
last column can receive scores, as the counterexample shows.) -/
theorem C2_amended_writes_confined_to_matrix_columns :
    ∀ (records : List FragmentRecord) (d : String → Option Nat)
      (chrom : String) (start stop : Int) (mx : Mat) (r c : Nat)
      (env : String → FragStore) (src : FragSource) (cells : List String)
      (chrom2 : String) (s e : Int) (m : Mat),
      (mx.ncols ≤ c →
        (_region_pileup mx records d chrom start stop).entry r c =
          mx.entry r c) ∧
      ((region_pileup env src cells chrom2 s e).result = .ok m →
        (e - s).toNat ≤ c → m.entry r c = 0) := by
  intro records d chrom start stop mx r c env src cells chrom2 s e m
  constructor
  · intro h
    exact foldl_addRecord_entry_high d start _ mx r c h
  · intro hok hc
    by_cases h1 : e - s < 0
    · rw [region_pileup_invalidRange env src cells chrom2 s e h1] at hok
      exact absurd hok (by simp)
    · cases h2 : (resolveConn env src).store.contigs.contains chrom2
      · rw [region_pileup_unknownContig env src cells chrom2 s e h1 h2] at hok
        exact absurd hok (by simp)
      · rw [region_pileup_ok env src cells chrom2 s e h1 h2] at hok
        have hm : _region_pileup
            ⟨cells.length, (e - s).toNat, fun _ _ => 0⟩
            (resolveConn env src).store.records (buildDict cells)
            chrom2 s e = m := by
          injection hok
        rw [← hm, _region_pileup,
          foldl_addRecord_entry_high (buildDict cells) s _ _ r c hc]

/-- C2 amended witness: a concrete instance of both conjuncts — a column at
the matrix width is untouched by the accumulator, and for a successful
`region_pileup` over `[0, 2)` column `5` (beyond the window width `2`)
is zero. -/
theorem C2_amended_witness :
    ((2 : Nat) ≤ 5 ∧
      (_region_pileup ⟨1, 2, fun _ _ => 0⟩ [⟨"chr1", 0, 9, "A", 1⟩]
          (buildDict ["A"]) "chr1" 0 2).entry 0 5 =
        (⟨1, 2, fun _ _ => 0⟩ : Mat).entry 0 5) ∧
    ((region_pileup (fun _ => ⟨[], []⟩)
          (.conn ⟨⟨["chr1"], []⟩, true⟩) ["A"] "chr1" 0 2).result =
        .ok (_region_pileup ⟨1, 2, fun _ _ => 0⟩ []
          (buildDict ["A"]) "chr1" 0 2) ∧
      ((2 : Int) - 0).toNat ≤ 5 ∧
      (_region_pileup ⟨1, 2, fun _ _ => 0⟩ []
          (buildDict ["A"]) "chr1" 0 2).entry 0 5 = 0) := by
  refine ⟨⟨by decide, ?_⟩, rfl, by decide, ?_⟩
  · exact (C2_amended_writes_confined_to_matrix_columns
      [⟨"chr1", 0, 9, "A", 1⟩] (buildDict ["A"]) "chr1" 0 2
      ⟨1, 2, fun _ _ => 0⟩ 0 5 (fun _ => ⟨[], []⟩)
      (.conn ⟨⟨["chr1"], []⟩, true⟩) ["A"] "chr1" 0 2
      ⟨1, 2, fun _ _ => 0⟩).1 (by decide)
  · exact (C2_amended_writes_confined_to_matrix_columns
      [⟨"chr1", 0, 9, "A", 1⟩] (buildDict ["A"]) "chr1" 0 2
      ⟨1, 2, fun _ _ => 0⟩ 0 5 (fun _ => ⟨[], []⟩)
      (.conn ⟨⟨["chr1"], []⟩, true⟩) ["A"] "chr1" 0 2
      (_region_pileup ⟨1, 2, fun _ _ => 0⟩ []
        (buildDict ["A"]) "chr1" 0 2)).2 rfl (by decide)

/-- C3 counterexample: with `start = 3 > end = 1` AND an unknown chromosome
`"chrX"`, `region_pileup` raises the invalid-range error, not the
unknown-contig error — the range check comes first, so the claim's
unconditional "raises UnknownContigError whenever the chromosome is
unknown" is false. -/
theorem C3_counterexample_range_check_precedes_contig_check :
    (region_pileup (fun _ => ⟨[], []⟩) (.conn ⟨⟨["chr1"], []⟩, true⟩)
        ["A"] "chrX" 3 1).result = .error (.invalidRange 3 1) ∧
      (["chr1"].contains "chrX" = false) ∧
      PileupError.invalidRange 3 1 ≠ PileupError.unknownContig "chrX" := by
  refine ⟨rfl, by decide, by decide⟩

/-- C3 amended: `region_pileup` raises `InvalidRangeError` whenever
`start > end`; it raises `UnknownContigError` whenever `start ≤ end` and the
chromosome is absent from the contigs (the range check takes precedence);
and under both preconditions it raises neither, returning the accumulated
matrix. -/
theorem C3_amended_error_contract_with_precedence :
    ∀ (env : String → FragStore) (src : FragSource) (cells : List String)
      (chrom : String) (s e : Int),
      (e < s → (region_pileup env src cells chrom s e).result =
        .error (.invalidRange s e)) ∧
      (s ≤ e →
        (resolveConn env src).store.contigs.contains chrom = false →
        (region_pileup env src cells chrom s e).result =
          .error (.unknownContig chrom)) ∧
      (s ≤ e →
        (resolveConn env src).store.contigs.contains chrom = true →
        (region_pileup env src cells chrom s e).result =
          .ok (_region_pileup ⟨cells.length, (e - s).toNat, fun _ _ => 0⟩
            (resolveConn env src).store.records (buildDict cells)
            chrom s e)) := by
  intro env src cells chrom s e
  refine ⟨?_, ?_, ?_⟩
  · intro h
    rw [region_pileup_invalidRange env src cells chrom s e (by omega)]
  · intro hse h2
    rw [region_pileup_unknownContig env src cells chrom s e (by omega) h2]
  · intro hse h2
    rw [region_pileup_ok env src cells chrom s e (by omega) h2]

/-- C3 amended witness: the three branches at concrete inputs — `[3, 1)`
raises the invalid-range error, `[0, 1)` on unknown `"chrX"` raises the
unknown-contig error, and `[0, 1)` on `"chr1"` succeeds. -/
theorem C3_amended_witness :
    ((1 : Int) < 3 ∧
      (region_pileup (fun _ => ⟨[], []⟩) (.conn ⟨⟨["chr1"], []⟩, true⟩)
          ["A"] "chr1" 3 1).result = .error (.invalidRange 3 1)) ∧
    ((region_pileup (fun _ => ⟨[], []⟩) (.conn ⟨⟨["chr1"], []⟩, true⟩)
        ["A"] "chrX" 0 1).result = .error (.unknownContig "chrX")) ∧
    ((region_pileup (fun _ => ⟨[], []⟩) (.conn ⟨⟨["chr1"], []⟩, true⟩)
        ["A"] "chr1" 0 1).result =
      .ok (_region_pileup ⟨1, 1, fun _ _ => 0⟩ [] (buildDict ["A"])
        "chr1" 0 1)) := by
  refine ⟨⟨by decide, ?_⟩, ?_, ?_⟩
  · exact (C3_amended_error_contract_with_precedence (fun _ => ⟨[], []⟩)
      (.conn ⟨⟨["chr1"], []⟩, true⟩) ["A"] "chr1" 3 1).1 (by decide)
  · exact (C3_amended_error_contract_with_precedence (fun _ => ⟨[], []⟩)
      (.conn ⟨⟨["chr1"], []⟩, true⟩) ["A"] "chrX" 0 1).2.1 (by decide) rfl
  · exact (C3_amended_error_contract_with_precedence (fun _ => ⟨[], []⟩)
      (.conn ⟨⟨["chr1"], []⟩, true⟩) ["A"] "chr1" 0 1).2.2 (by decide) rfl

/-- C9: whenever `region_pileup` returns successfully it has closed the
fragment-store connection — including when the caller passed an already-open
handle (`FragSource.conn`), whose state after the call is closed. -/
theorem C9_region_pileup_closes_connection_on_success :
    ∀ (env : String → FragStore) (src : FragSource) (cells : List String)
      (chrom : String) (s e : Int),
      isOkE (region_pileup env src cells chrom s e).result = true →
      (region_pileup env src cells chrom s e).conn.isOpen = false := by
  intro env src cells chrom s e h
  by_cases h1 : e - s < 0
  · rw [region_pileup_invalidRange env src cells chrom s e h1] at h
    exact absurd h (by simp [isOkE])
  · cases h2 : (resolveConn env src).store.contigs.contains chrom
    · rw [region_pileup_unknownContig env src cells chrom s e h1 h2] at h
      exact absurd h (by simp [isOkE])
    · rw [region_pileup_ok env src cells chrom s e h1 h2]

/-- C9 witness: a concrete successful call on a caller-supplied OPEN handle
leaves that handle closed. -/
theorem C9_witness :
    isOkE (region_pileup (fun _ => ⟨[], []⟩)
        (.conn ⟨⟨["chr1"], []⟩, true⟩) ["A"] "chr1" 0 2).result = true ∧
      (region_pileup (fun _ => ⟨[], []⟩)
        (.conn ⟨⟨["chr1"], []⟩, true⟩) ["A"] "chr1" 0 2).conn.isOpen = false := by
  refine ⟨rfl, C9_region_pileup_closes_connection_on_success
    (fun _ => ⟨[], []⟩) (.conn ⟨⟨["chr1"], []⟩, true⟩) ["A"] "chr1" 0 2 rfl⟩

/-- C10: for any cells and any chromosome among the contigs, `region_pileup`
with `start = end` passes the range check (`end - start = 0` is not `< 0`)
and returns a matrix with one row per cell and zero columns. -/
theorem C10_zero_width_interval_returns_empty_matrix :
    ∀ (env : String → FragStore) (src : FragSource) (cells : List String)
      (chrom : String) (s : Int),
      (resolveConn env src).store.contigs.contains chrom = true →
      ∃ m, (region_pileup env src cells chrom s s).result = .ok m ∧
        m.nrows = cells.length ∧ m.ncols = 0 := by
  intro env src cells chrom s h2
  rw [region_pileup_ok env src cells chrom s s (by omega) h2]
  refine ⟨_, rfl, ?_, ?_⟩
  · rw [_region_pileup, foldl_addRecord_nrows]
  · rw [_region_pileup, foldl_addRecord_ncols]
    simp

/-- C10 witness: a concrete zero-width call returning a `1 x 0` matrix. -/
theorem C10_witness :
    (["chr1"].contains "chr1" = true) ∧
      ∃ m, (region_pileup (fun _ => ⟨[], []⟩)
          (.conn ⟨⟨["chr1"], [⟨"chr1", 2, 9, "A", 4⟩]⟩, true⟩)
          ["A"] "chr1" 5 5).result = .ok m ∧
        m.nrows = 1 ∧ m.ncols = 0 := by
  refine ⟨by decide, C10_zero_width_interval_returns_empty_matrix
    (fun _ => ⟨[], []⟩) (.conn ⟨⟨["chr1"], [⟨"chr1", 2, 9, "A", 4⟩]⟩, true⟩)
    ["A"] "chr1" 5 rfl⟩

lemma filterMap_pair_score_sum (d : String → Option Nat) (r : Nat) :
    ∀ l : List FragmentRecord,
      (((l.filterMap fun fr => (d fr.name).map fun ind => (ind, fr.score)).filter
          fun p => p.1 == r).map fun p => p.2).sum =
        ((l.filter fun fr => d fr.name == some r).map fun fr => fr.score).sum := by
  intro l
  induction l with
  | nil => rfl
  | cons fr l ih =>
    rcases hd : d fr.name with _ | ind
    · simp [List.filterMap_cons, List.filter_cons, hd, ih]
    · by_cases hr : ind = r
      · subst hr
        simp [List.filterMap_cons, List.filter_cons, hd, ih]
      · simp [List.filterMap_cons, List.filter_cons, hd, hr, ih]

/-- C4: when `count_fragments_features` succeeds, the entry of the returned
cell x feature matrix at `(r, i)` for the `i`-th feature `f` is the sum of
the scores of the fragments fetched over exactly
`[f.Start - extend_upstream, f.End + extend_downstream)` whose barcode the
cell dictionary maps to row `r`; fragments with unknown barcodes contribute
nothing. -/
theorem C4_count_fragments_features_entry_is_score_sum :
    ∀ (store : FragStore) (cells : List String) (features : List Feature)
      (eU eD : Int) (rowsData : List (List (Nat × Int))) (i : Nat)
      (f : Feature) (r : Nat),
      count_fragments_features store cells features eU eD = .ok rowsData →
      features[i]? = some f →
      matrixEntry rowsData r i =
        (((tabixFetch store.records f.chrom (f.fstart - eU)
              (f.fend + eD)).filter
            fun fr => buildDict cells fr.name == some r).map
          fun fr => fr.score).sum := by
  intro store cells features eU eD rowsData i f r hok hi
  rw [count_fragments_features] at hok
  cases hfind : features.find? (fun f => !(store.contigs.contains f.chrom)) with
  | some g =>
    rw [hfind] at hok
    exact Except.noConfusion hok
  | none =>
    rw [hfind] at hok
    injection hok with hrows
    subst hrows
    rw [matrixEntry, List.getElem?_map, hi]
    exact filterMap_pair_score_sum (buildDict cells) r _

/-- C4 witness: one feature over `[0, 10)`, cells `["A"]`: the two fragments
of barcode `A` (scores 2 and 3) sum to 5 at entry `(0, 0)`; the fragment of
unknown barcode `B` contributes nothing. -/
theorem C4_witness :
    (count_fragments_features
        ⟨["chr1"], [⟨"chr1", 0, 5, "A", 2⟩, ⟨"chr1", 3, 8, "A", 3⟩,
          ⟨"chr1", 0, 5, "B", 7⟩]⟩ ["A"] [⟨"chr1", 0, 10⟩] 0 0 =
      .ok [[(0, 2), (0, 3)]]) ∧
    ([(⟨"chr1", 0, 10⟩ : Feature)][0]? = some ⟨"chr1", 0, 10⟩) ∧
    matrixEntry [[(0, 2), (0, 3)]] 0 0 =
      (((tabixFetch [⟨"chr1", 0, 5, "A", 2⟩, ⟨"chr1", 3, 8, "A", 3⟩,
            ⟨"chr1", 0, 5, "B", 7⟩] "chr1" ((0 : Int) - 0)
            ((10 : Int) + 0)).filter
          fun fr => buildDict ["A"] fr.name == some 0).map
        fun fr => fr.score).sum := by
  refine ⟨rfl, rfl, C4_count_fragments_features_entry_is_score_sum
    ⟨["chr1"], [⟨"chr1", 0, 5, "A", 2⟩, ⟨"chr1", 3, 8, "A", 3⟩,
      ⟨"chr1", 0, 5, "B", 7⟩]⟩ ["A"] [⟨"chr1", 0, 10⟩] 0 0
    [[(0, 2), (0, 3)]] 0 ⟨"chr1", 0, 10⟩ 0 rfl rfl⟩

/-- C5 counterexample: with no explicit path and a `files` map holding no
fragments entry, `locate_fragments` does NOT surface an error to the caller:
the internal `ValueError` is caught by the catch-all handler (recorded in
`caught`) and the call returns normally — the result is `Except.ok`, not
`Except.error`. -/
theorem C5_counterexample_error_not_surfaced :
    locate_fragments (fun _ => true) (some none) none false =
        .ok { uns := some none, ret := none, resolved := none,
              caught := some LocError.valueErrorNoPath } ∧
      locate_fragments (fun _ => true) (some none) none false ≠
        Except.error LocError.valueErrorNoPath := by
  exact ⟨rfl, fun h => Except.noConfusion h⟩

/-- C5 amended: with no explicit path, the no-stored-path `ValueError`
(when a `files` map exists) or the `KeyError` (when it does not) is raised
inside the `try` block, caught by the catch-all handler and only printed;
the call returns `None` with the metadata unchanged, surfacing nothing. -/
theorem C5_amended_no_path_error_is_caught_and_printed :
    ∀ (openOk : String → Bool) (rf : Bool),
      locate_fragments openOk (some none) none rf =
        .ok { uns := some none, ret := none, resolved := none,
              caught := some LocError.valueErrorNoPath } ∧
      locate_fragments openOk none none rf =
        .ok { uns := none, ret := none, resolved := none,
              caught := some LocError.keyError } := by
  intro openOk rf
  exact ⟨rfl, rfl⟩

/-- C8: for any starting metadata and any path that opens successfully,
`locate_fragments(data, path)` stores the path under
`uns["files"]["fragments"]`, and the following `locate_fragments(data)` with
no explicit path resolves that same stored path. -/
theorem C8_locate_fragments_round_trip :
    ∀ (openOk : String → Bool) (uns0 : Option (Option String)) (path : String),
      openOk path = true →
      ∃ r1 r2,
        locate_fragments openOk uns0 (some path) false = .ok r1 ∧
        locate_fragments openOk r1.uns none false = .ok r2 ∧
        r1.uns = some (some path) ∧ r2.resolved = some path ∧
        r2.uns = some (some path) := by
  intro openOk uns0 path h
  refine ⟨⟨some (some path), none, some path, none⟩,
    ⟨some (some path), none, some path, none⟩, ?_, ?_, rfl, rfl, rfl⟩
  · simp [locate_fragments, locate_fragments_try, Except.bind, h]
  · simp [locate_fragments, locate_fragments_try, Except.bind, h]

/-- C8 witness: a concrete round trip through the metadata entry. -/
theorem C8_witness :
    ((fun _ => true) : String → Bool) "a.gz" = true ∧
      ∃ r1 r2,
        locate_fragments (fun _ => true) none (some "a.gz") false = .ok r1 ∧
        locate_fragments (fun _ => true) r1.uns none false = .ok r2 ∧
        r1.uns = some (some "a.gz") ∧ r2.resolved = some "a.gz" ∧
        r2.uns = some (some "a.gz") :=
  ⟨rfl, C8_locate_fragments_round_trip (fun _ => true) none "a.gz" rfl⟩

lemma mem_featureRows_feature (store : FragStore) (eU eD : Int) (rel : Bool)
    (f : Feature) (row : DfRow) (h : row ∈ featureRows store eU eD rel f) :
    row.feature =
      f.chrom ++ "_" ++ toString f.fstart ++ "_" ++ toString f.fend := by
  simp only [featureRows] at h
  split at h
  · split at h
    · exact absurd h (List.not_mem_nil row)
    · obtain ⟨x, _, rfl⟩ := List.mem_map.1 h
      split <;> rfl
  · exact absurd h (List.not_mem_nil row)

/-- C6 counterexample: with `extend_upstream = 10` the single emitted row is
tagged `"chr1_10_20"`, built from the feature's original coordinates
`(10, 20)`, not from the post-extension fetch coordinates `(0, 20)` as the
claim states. -/
theorem C6_counterexample_label_not_post_extension :
    fetch_regions_to_df ⟨["chr1"], [⟨"chr1", 5, 15, "A", 1⟩]⟩
        [⟨"chr1", 10, 20⟩] 10 0 false =
      .ok [⟨"chr1", 5, 15, "A", 1, "chr1_10_20"⟩] ∧
    ((10 : Int) - 10 = 0) ∧ "chr1_10_20" ≠ "chr1_0_20" := by
  refine ⟨rfl, by decide, by decide⟩

/-- C6 amended: every row emitted by `fetch_regions_to_df` is tagged with
the synthetic label `"{chrom}_{start}_{end}"` built from its source
feature's ORIGINAL (pre-extension) `Start` and `End`, not from the extended
fetch coordinates. -/
theorem C6_amended_labels_use_original_coordinates :
    ∀ (store : FragStore) (features : List Feature) (eU eD : Int)
      (rel : Bool) (rows : List DfRow) (row : DfRow),
      fetch_regions_to_df store features eU eD rel = .ok rows →
      row ∈ rows →
      ∃ f, f ∈ features ∧
        row.feature = f.chrom ++ "_" ++ toString f.fstart ++ "_" ++
          toString f.fend := by
  intro store features eU eD rel rows row hok hrow
  simp only [fetch_regions_to_df] at hok
  split at hok
  · exact Except.noConfusion hok
  · injection hok with hrows
    subst hrows
    obtain ⟨df, hdf, hrowdf⟩ := List.mem_flatten.1 hrow
    obtain ⟨f, hf, rfl⟩ := List.mem_map.1 (List.mem_filter.1 hdf).1
    exact ⟨f, hf, mem_featureRows_feature store eU eD rel f row hrowdf⟩

/-- C6 amended witness: the emitted row of the counterexample input indeed
carries the label built from the original coordinates of its feature. -/
theorem C6_amended_witness :
    (fetch_regions_to_df ⟨["chr1"], [⟨"chr1", 5, 15, "A", 1⟩]⟩
        [⟨"chr1", 10, 20⟩] 10 0 false =
      .ok [⟨"chr1", 5, 15, "A", 1, "chr1_10_20"⟩]) ∧
    ((⟨"chr1", 5, 15, "A", 1, "chr1_10_20"⟩ : DfRow) ∈
      [(⟨"chr1", 5, 15, "A", 1, "chr1_10_20"⟩ : DfRow)]) ∧
    ∃ f, f ∈ [(⟨"chr1", 10, 20⟩ : Feature)] ∧
      (⟨"chr1", 5, 15, "A", 1, "chr1_10_20"⟩ : DfRow).feature =
        f.chrom ++ "_" ++ toString f.fstart ++ "_" ++ toString f.fend := by
  refine ⟨rfl, by decide, C6_amended_labels_use_original_coordinates
    ⟨["chr1"], [⟨"chr1", 5, 15, "A", 1⟩]⟩ [⟨"chr1", 10, 20⟩] 10 0 false
    [⟨"chr1", 5, 15, "A", 1, "chr1_10_20"⟩]
    ⟨"chr1", 5, 15, "A", 1, "chr1_10_20"⟩ rfl (by decide)⟩

/-- C7 counterexample: when no region produces any rows the call raises the
untyped pandas `ValueError` of `pd.concat` on zero tables
(`concatValueError`), which is not the typed `EmptyResultError` the claim
prescribes. -/
theorem C7_counterexample_concat_error_not_typed :
    fetch_regions_to_df ⟨["chr1"], []⟩ [⟨"chr1", 0, 10⟩] 0 0 false =
        .error FetchDfErr.concatValueError ∧
      FetchDfErr.concatValueError ≠ FetchDfErr.emptyResultError := by
  exact ⟨rfl, by decide⟩

/-- C7 amended: whenever every feature yields an empty per-feature table
(skipped chromosome or empty fetch), `fetch_regions_to_df` raises an error —
the cryptic `ValueError` pandas raises when concatenating zero tables — so
it never silently returns an empty table, but the error is not a typed
`EmptyResultError`. -/
theorem C7_amended_zero_tables_raise_concat_error :
    ∀ (store : FragStore) (features : List Feature) (eU eD : Int)
      (rel : Bool),
      (∀ f ∈ features, featureRows store eU eD rel f = []) →
      fetch_regions_to_df store features eU eD rel =
        .error FetchDfErr.concatValueError := by
  intro store features eU eD rel h
  have hfil : (features.map (featureRows store eU eD rel)).filter
      (fun df => !df.isEmpty) = [] := by
    rw [List.filter_eq_nil_iff]
    intro df hdf
    obtain ⟨f, hf, rfl⟩ := List.mem_map.1 hdf
    simp [h f hf]
  simp only [fetch_regions_to_df, hfil]
  rfl

/-- C7 amended witness: a store with no fragments over one feature yields
zero tables and the concat error. -/
theorem C7_amended_witness :
    (∀ f ∈ [(⟨"chr1", 0, 10⟩ : Feature)],
      featureRows ⟨["chr1"], []⟩ 0 0 false f = []) ∧
    fetch_regions_to_df ⟨["chr1"], []⟩ [⟨"chr1", 0, 10⟩] 0 0 false =
      .error FetchDfErr.concatValueError := by
  refine ⟨by decide, C7_amended_zero_tables_raise_concat_error
    ⟨["chr1"], []⟩ [⟨"chr1", 0, 10⟩] 0 0 false (by decide)⟩

end Muon
